import Mathlib

/-!
Verification of the passport-photo service against its specification.

The development shallowly embeds the relevant parts of the code base:

* `src/database/dynamodb_client.py` — the rate-limit counter store
  (`check_rate_limit`, `record_request`).  DynamoDB is modelled as an
  association list from structured keys `(identifier, limit_type, utc day)`
  to counter records; timestamps are integer seconds since the epoch, and
  the UTC calendar date embedded in the sort key `limit_type#YYYY-MM-DD`
  is modelled as the floor of `t / 86400`.  The two failure modes of the
  real client (unhealthy connection, a raised `ClientError` inside the
  `try` block) are modelled by explicit `failGet` / `failUpdate` oracles.
* `src/services/rate_limiting.py` — `check_ip_limit`, `check_email_limit`,
  `check_combined_limits`, `implement_exponential_backoff` and their
  helpers, over the same store model.
* `src/application.py` — the face-selection scorer `_select_best_face`
  (real-valued arithmetic, `**0.5` becomes `Real.sqrt`), the face-box
  construction of `detect_face`, and the crop geometry `intelligent_crop`
  (Python floats become exact rationals, `int(...)` becomes truncation
  toward zero, `//` becomes floor division).
-/

/-- Python `int(...)` applied to a (here: exact rational) float: truncation
toward zero, i.e. floor for nonnegative arguments and ceiling for negative
ones. -/
def pytrunc (q : ℚ) : ℤ := if 0 ≤ q then ⌊q⌋ else ⌈q⌉

/-! ### Store model for `src/database/dynamodb_client.py` -/

/-- One rate-limit counter item, as written by `record_request`
(`request_count`, `last_request`, `request_action`, `TTL`). -/
structure RateRecord where
  request_count : ℤ
  last_request : ℤ
  request_action : String
  ttlSecs : ℤ
deriving DecidableEq

/-- A key of the rate-limit table: partition key `RATE#identifier` and sort
key `limit_type#YYYY-MM-DD`, modelled structurally. -/
abbrev RKey := String × String × ℤ

/-- The modelled DynamoDB state: connection health (`_is_healthy`), an
oracle for a raised exception in `get_item` (`failGet`), an oracle for a
raised exception in `update_item` (`failUpdate`), and the table contents. -/
structure DbState where
  healthy : Bool
  failGet : Bool
  failUpdate : Bool
  store : List (RKey × RateRecord)
deriving DecidableEq

/-- Result dictionary of `DynamoDBClient.check_rate_limit`. -/
structure RLResult where
  allowed : Bool
  remaining : ℤ
  reset_time : Option ℤ
deriving DecidableEq

/-- `datetime.now(timezone.utc).strftime('%Y-%m-%d')`: the UTC calendar
date of an epoch timestamp, modelled as its day number. -/
def utcDay (t : ℤ) : ℤ := t.fdiv 86400

/-- Association-list lookup for the table. -/
def storeLookup (k : RKey) : List (RKey × RateRecord) → Option RateRecord
  | [] => none
  | (k', v) :: rest => if k = k' then some v else storeLookup k rest

/-- Association-list insert-or-replace for the table. -/
def storeInsert (k : RKey) (v : RateRecord) :
    List (RKey × RateRecord) → List (RKey × RateRecord)
  | [] => [(k, v)]
  | (k', v') :: rest =>
    if k = k' then (k, v) :: rest else (k', v') :: storeInsert k v rest

/-- `DynamoDBClient.check_rate_limit(identifier, limit_type, limit,
window_hours)` at time `now`.  Returns the result dictionary together with
the (unchanged — the function only performs `get_item`) store state.
`timedelta(hours=w)` is `3600 * w` seconds.  A record's window is elapsed
when `last_request < now - 3600 * window_hours`, read directly off the
source's `if last_request < window_start`. -/
def check_rate_limit (db : DbState) (identifier limit_type : String)
    (limit window_hours now : ℤ) : RLResult × DbState :=
  if db.healthy = false then
    ({ allowed := true, remaining := limit, reset_time := none }, db)
  else
    let today := utcDay now
    let window_start := now - 3600 * window_hours
    if db.failGet then
      ({ allowed := true, remaining := limit, reset_time := none }, db)
    else
      match storeLookup (identifier, limit_type, today) db.store with
      | none => ({ allowed := true, remaining := limit - 1, reset_time := none }, db)
      | some item =>
        if item.last_request < window_start then
          ({ allowed := true, remaining := limit - 1, reset_time := none }, db)
        else if limit ≤ item.request_count then
          ({ allowed := false, remaining := 0,
             reset_time := some (item.last_request + 3600 * window_hours) }, db)
        else
          ({ allowed := true, remaining := limit - item.request_count - 1,
             reset_time := none }, db)

/-- `DynamoDBClient.record_request(identifier, limit_type, action,
window_hours)` at time `now`: `ADD request_count 1` (DynamoDB creates the
attribute at `1` when the item is absent) and `SET last_request = now,
request_action = action, TTL = now + 1 day`.  Returns the boolean result
and the new store state. -/
def record_request (db : DbState) (identifier limit_type action : String)
    (window_hours now : ℤ) : Bool × DbState :=
  if db.healthy = false then (true, db)
  else
    let today := utcDay now
    if db.failUpdate then (false, db)
    else
      let key : RKey := (identifier, limit_type, today)
      let newRec : RateRecord :=
        match storeLookup key db.store with
        | none =>
          { request_count := 1, last_request := now,
            request_action := action, ttlSecs := now + 86400 }
        | some item =>
          { request_count := item.request_count + 1, last_request := now,
            request_action := action, ttlSecs := now + 86400 }
      (true, { db with store := storeInsert key newRec db.store })

/-! ### `src/services/rate_limiting.py` -/

/-- `self.limits['unverified_ip_hourly']`. -/
def limits_unverified_ip_hourly : ℤ := 3

/-- `self.limits['verified_email_daily']`. -/
def limits_verified_email_daily : ℤ := 20

/-- `self.limits['failed_login_backoff']`. -/
def limits_failed_login_backoff : ℤ := 5

/-- Result dictionary of the service-level single checks.  `remaining` is
`WithTop ℤ` because `check_ip_limit` returns `float('inf')` for verified
users; the database-level results embed via the coercion. -/
structure SvcLimitResult where
  allowed : Bool
  remaining : WithTop ℤ
  limit_type : Option String
  reset_time : Option ℤ
deriving DecidableEq

/-- Re-package a database-level result as a service-level one (the Python
code returns the database dictionary unchanged; it carries no
`limit_type`). -/
def liftDbResult (r : RLResult) : SvcLimitResult :=
  { allowed := r.allowed, remaining := (r.remaining : WithTop ℤ),
    limit_type := none, reset_time := r.reset_time }

/-- `RateLimitingService.check_ip_limit(ip_address, verified)`. -/
def check_ip_limit (db : DbState) (ip_address : String) (verified : Bool)
    (now : ℤ) : SvcLimitResult :=
  if verified then
    { allowed := true, remaining := ⊤, limit_type := some "none",
      reset_time := none }
  else
    liftDbResult
      (check_rate_limit db ip_address "IP_HOURLY" limits_unverified_ip_hourly 1 now).1

/-- `RateLimitingService.check_email_limit(email)`. -/
def check_email_limit (db : DbState) (email : String) (now : ℤ) : SvcLimitResult :=
  liftDbResult
    (check_rate_limit db email.toLower "EMAIL_DAILY" limits_verified_email_daily 24 now).1

/-- Result dictionary of `check_combined_limits`. -/
structure CombinedResult where
  allowed : Bool
  reason : Option String
  limit_type : String
  remaining : WithTop ℤ
  reset_time : Option ℤ
deriving DecidableEq

/-- Python truthiness of the optional `email` argument (`None` and the
empty string are falsy). -/
def strTruthy : Option String → Bool
  | none => false
  | some s => !(s == "")

/-- The tail of `check_combined_limits` after the early `return` for an
exceeded IP limit: the verified-email check and the remaining-quota
computation. -/
def combined_tail (db : DbState) (ip_address : String) (email : Option String)
    (verified : Bool) (now : ℤ) : CombinedResult :=
  let quota : CombinedResult :=
    if verified && strTruthy email then
      { allowed := true, reason := none, limit_type := "email_daily",
        remaining := (check_email_limit db (email.getD "") now).remaining,
        reset_time := none }
    else
      { allowed := true, reason := none, limit_type := "ip_hourly",
        remaining := (check_ip_limit db ip_address false now).remaining,
        reset_time := none }
  if verified && strTruthy email then
    let email_check := check_email_limit db (email.getD "") now
    if email_check.allowed = false then
      { allowed := false, reason := some "Daily quota exceeded",
        limit_type := "email_daily", remaining := email_check.remaining,
        reset_time := email_check.reset_time }
    else quota
  else quota

/-- `RateLimitingService.check_combined_limits(ip_address, email,
verified)`. -/
def check_combined_limits (db : DbState) (ip_address : String)
    (email : Option String) (verified : Bool) (now : ℤ) : CombinedResult :=
  if verified then combined_tail db ip_address email verified now
  else
    let ip_check := check_ip_limit db ip_address false now
    if ip_check.allowed = false then
      { allowed := false, reason := some "IP rate limit exceeded",
        limit_type := "ip_hourly", remaining := ip_check.remaining,
        reset_time := ip_check.reset_time }
    else combined_tail db ip_address email verified now

/-- `RateLimitingService._get_failure_count`: `100 - remaining` of a
`check_rate_limit` probe with limit `100` over one hour. -/
def _get_failure_count (db : DbState) (identifier failure_type : String)
    (now : ℤ) : ℤ :=
  100 - (check_rate_limit db identifier ("FAILURE_" ++ failure_type.toUpper)
    100 1 now).1.remaining

/-- `RateLimitingService._get_last_failure_time`: the source is a stub that
always returns `None` ("For now, we'll use a simplified approach"). -/
def _get_last_failure_time (db : DbState) (identifier failure_type : String) :
    Option ℤ := none

/-- Result dictionary of `implement_exponential_backoff`. -/
structure BackoffResult where
  backoff_required : Bool
  failure_count : ℤ
  backoff_seconds : Option ℤ
  retry_after : Option ℤ
deriving DecidableEq

/-- `RateLimitingService.implement_exponential_backoff(identifier,
failure_type)` at time `now`. -/
def implement_exponential_backoff (db : DbState) (identifier failure_type : String)
    (now : ℤ) : BackoffResult :=
  let failure_count := _get_failure_count db identifier failure_type now
  if failure_count < limits_failed_login_backoff then
    { backoff_required := false, failure_count := failure_count,
      backoff_seconds := none, retry_after := none }
  else
    let backoff_minutes : ℤ := min ((2 : ℤ) ^ (failure_count - 5).toNat) 60
    let backoff_seconds := backoff_minutes * 60
    match _get_last_failure_time db identifier failure_type with
    | some last_failure_time =>
      let time_since_failure := now - last_failure_time
      if time_since_failure < backoff_seconds then
        { backoff_required := true, failure_count := failure_count,
          backoff_seconds := some (backoff_seconds - time_since_failure),
          retry_after := some (now + (backoff_seconds - time_since_failure)) }
      else
        { backoff_required := false, failure_count := failure_count,
          backoff_seconds := none, retry_after := none }
    | none =>
      { backoff_required := false, failure_count := failure_count,
        backoff_seconds := none, retry_after := none }

/-! ### Crop geometry, `EnhancedPhotoProcessor.intelligent_crop` -/

/-- A face bounding box `{x, y, width, height}` (integer pixels). -/
structure Box where
  x : ℤ
  y : ℤ
  w : ℤ
  h : ℤ
deriving DecidableEq

/-- A crop rectangle `(left, top, right, bottom)` as handed to
`PIL.Image.crop`. -/
structure CropRect where
  left : ℤ
  top : ℤ
  right : ℤ
  bottom : ℤ
deriving DecidableEq

/-- The fallback center crop of `intelligent_crop` (no face box, or
intelligent cropping disabled). -/
def center_crop (W H : ℤ) : CropRect :=
  let size := min W H
  let left := (W - size).fdiv 2
  let top := (H - size).fdiv 2
  ⟨left, top, left + size, top + size⟩

/-- `crop_size = (fh / 0.6) / 0.75`: estimated full head height over the
target head fraction of the crop. -/
def crop_size_q (fh : ℤ) : ℚ := ((fh : ℚ) / 0.6) / 0.75

/-- Vertical placement of the crop: `crop_top`, `crop_bottom` including the
(boundary-dead) re-adjustment branch of the source. -/
def crop_vert (H fy fh : ℤ) : ℤ × ℤ :=
  let crop_size := crop_size_q fh
  let estimated_head_top : ℚ := (fy : ℚ) - (fh : ℚ) * 0.4
  let crop_top0 : ℤ := max 0 (pytrunc (estimated_head_top - crop_size * 0.12))
  let crop_bottom0 : ℤ := min H (pytrunc ((crop_top0 : ℚ) + crop_size))
  if H < crop_bottom0 then (max 0 (H - pytrunc crop_size), H)
  else (crop_top0, crop_bottom0)

/-- Horizontal placement of the crop: `crop_left`, `crop_right` including
the (boundary-dead) re-adjustment branch of the source. -/
def crop_horiz (W fx fw fh : ℤ) : ℤ × ℤ :=
  let crop_size := crop_size_q fh
  let face_center_x : ℚ := (fx : ℚ) + (fw : ℚ) / 2
  let crop_left0 : ℤ := max 0 (pytrunc (face_center_x - crop_size / 2))
  let crop_right0 : ℤ := min W (pytrunc ((crop_left0 : ℚ) + crop_size))
  if W < crop_right0 then (max 0 (W - pytrunc crop_size), W)
  else (crop_left0, crop_right0)

/-- The final "ensure perfect square" pass of `intelligent_crop`:
`final_size = min(actual_width, actual_height)` and re-centering of the
longer side. -/
def square_adjust (lr tb : ℤ × ℤ) : CropRect :=
  let actual_width := lr.2 - lr.1
  let actual_height := tb.2 - tb.1
  let final_size := min actual_width actual_height
  let crop_left2 :=
    if final_size < actual_width then lr.1 + actual_width.fdiv 2 - final_size.fdiv 2
    else lr.1
  let crop_right2 := if final_size < actual_width then crop_left2 + final_size else lr.2
  let crop_top2 :=
    if final_size < actual_height then tb.1 + actual_height.fdiv 2 - final_size.fdiv 2
    else tb.1
  let crop_bottom2 := if final_size < actual_height then crop_top2 + final_size else tb.2
  ⟨crop_left2, crop_top2, crop_right2, crop_bottom2⟩

/-- The face-box path of `intelligent_crop`. -/
def intelligent_crop_main (W H : ℤ) (fb : Box) : CropRect :=
  square_adjust (crop_horiz W fb.x fb.w fb.h) (crop_vert H fb.y fb.h)

/-- `EnhancedPhotoProcessor.intelligent_crop(img, face_bbox)` with the
`ENABLE_INTELLIGENT_CROPPING` flag made explicit. -/
def intelligent_crop (enabled : Bool) (W H : ℤ) (face_bbox : Option Box) : CropRect :=
  match face_bbox with
  | none => center_crop W H
  | some fb => if enabled then intelligent_crop_main W H fb else center_crop W H

/-! ### Face detection result, `AdvancedFaceDetection.detect_face` -/

/-- `crop_size = max(int(w * 1.8), int(h * 1.8))`: the side length of the
expanded face region computed in `detect_face`. -/
def expanded_size (w h : ℤ) : ℤ :=
  max (pytrunc ((w : ℚ) * 1.8)) (pytrunc ((h : ℚ) * 1.8))

/-- `crop_x = center_x - crop_size // 2` before clamping. -/
def expanded_x0 (x w h : ℤ) : ℤ :=
  x + w.fdiv 2 - (expanded_size w h).fdiv 2

/-- `crop_y = center_y - int(crop_size * 0.4)` before clamping. -/
def expanded_y0 (y w h : ℤ) : ℤ :=
  y + h.fdiv 2 - pytrunc ((expanded_size w h : ℚ) * 0.4)

/-- The `face_bbox` entry of the `detect_face` result: the expanded face
region clamped to the image. -/
def detection_face_bbox (x y w h width height : ℤ) : Box :=
  let crop_size0 := expanded_size w h
  let crop_x0 := expanded_x0 x w h
  let crop_y0 := expanded_y0 y w h
  let crop_x1 := max 0 (min crop_x0 (width - crop_size0))
  let crop_y1 := max 0 (min crop_y0 (height - crop_size0))
  let crop_size1 := min crop_size0 (min (width - crop_x1) (height - crop_y1))
  ⟨crop_x1, crop_y1, crop_size1, crop_size1⟩

/-- The `valid` flag of the `detect_face` result (face size, head height
and image aspect checks, loosened when two eyes were found). -/
def detection_valid (w h : ℤ) (eyes : ℕ) (width height : ℤ) : Bool :=
  let head_height_percent : ℚ := (h : ℚ) / (height : ℚ)
  let face_area_percent : ℚ := ((w : ℚ) * (h : ℚ)) / ((width : ℚ) * (height : ℚ)) * 100
  let has_good_eyes : Bool := decide (2 ≤ eyes)
  let face_size_ok : Bool :=
    if has_good_eyes then decide (0.3 ≤ face_area_percent ∧ face_area_percent ≤ 70)
    else decide (0.5 ≤ face_area_percent ∧ face_area_percent ≤ 60)
  let head_height_ok : Bool :=
    if has_good_eyes then decide (0.05 ≤ head_height_percent ∧ head_height_percent ≤ 0.95)
    else decide (0.1 ≤ head_height_percent ∧ head_height_percent ≤ 0.9)
  let aspect_ok : Bool :=
    decide (0.3 ≤ (width : ℚ) / (height : ℚ) ∧ (width : ℚ) / (height : ℚ) ≤ 3)
  face_size_ok && head_height_ok && aspect_ok

/-- The fields of the `detect_face` result dictionary that the processing
pipeline consumes (`valid`, `face_bbox`, `original_face`); the diagnostic
fields are omitted. -/
structure Detection where
  valid : Bool
  face_bbox : Box
  original_face : Box
deriving DecidableEq

/-- The `detect_face` result for the winning candidate `(x, y, w, h)` with
`eyes` detected eyes on a `width × height` image. -/
def detect_face_result (x y w h : ℤ) (eyes : ℕ) (width height : ℤ) : Detection :=
  { valid := detection_valid w h eyes width height,
    face_bbox := detection_face_bbox x y w h width height,
    original_face := ⟨x, y, w, h⟩ }

/-- The face box that `EnhancedPhotoProcessor.process_image` hands to
`intelligent_crop`: `face_result.get("face_bbox")` when the detection is
valid, nothing otherwise (the pipeline returns the error early). -/
def process_geometry_box (d : Detection) : Option Box :=
  if d.valid then some d.face_bbox else none

/-! ### Face scoring, `AdvancedFaceDetection._select_best_face` -/

/-- One detected face candidate `(fx, fy, fw, fh)` together with the
number of eyes the eye cascade found inside it. -/
structure FaceCand where
  fx : ℚ
  fy : ℚ
  fw : ℚ
  fh : ℚ
  eyes : ℕ
deriving DecidableEq

/-- `eye_score = len(eyes) * 50`. -/
def eye_score (c : FaceCand) : ℚ := (c.eyes : ℚ) * 50

/-- `size_score = min(face_area_percent * 2, 100)`. -/
def size_score (c : FaceCand) (W H : ℚ) : ℚ :=
  min ((c.fw * c.fh) / (W * H) * 100 * 2) 100

/-- `aspect_ratio = fw / fh if fh > 0 else 0`. -/
def aspect_ratio_val (c : FaceCand) : ℚ := if 0 < c.fh then c.fw / c.fh else 0

/-- `aspect_score = 25 if 0.7 <= aspect_ratio <= 1.4 else 0`. -/
def aspect_score (c : FaceCand) : ℚ :=
  if 0.7 ≤ aspect_ratio_val c ∧ aspect_ratio_val c ≤ 1.4 then 25 else 0

/-- `center_distance`: Euclidean distance from the candidate's center to
the image center. -/
noncomputable def center_distance (fx fy fw fh W H : ℝ) : ℝ :=
  Real.sqrt ((fx + fw / 2 - W / 2) ^ 2 + (fy + fh / 2 - H / 2) ^ 2)

/-- `max_distance = (width**2 + height**2)**0.5` as written in the
source. -/
noncomputable def max_distance (W H : ℝ) : ℝ := Real.sqrt (W ^ 2 + H ^ 2)

/-- `position_score = (1 - center_distance / max_distance) * 50`. -/
noncomputable def position_score (fx fy fw fh W H : ℝ) : ℝ :=
  (1 - center_distance fx fy fw fh W H / max_distance W H) * 50

/-- Modelled from the spec: the position score with `maxDistance` taken to
be the image's diagonal half-length `sqrt(width^2 + height^2) / 2`
(distance from the image center to a corner), as the specification words
it. -/
noncomputable def spec_position_score (fx fy fw fh W H : ℝ) : ℝ :=
  (1 - center_distance fx fy fw fh W H / (Real.sqrt (W ^ 2 + H ^ 2) / 2)) * 50

/-- `total_score = eye_score + size_score + position_score +
aspect_score`. -/
noncomputable def total_score (c : FaceCand) (W H : ℚ) : ℝ :=
  (eye_score c : ℝ) + (size_score c W H : ℝ) +
    position_score (c.fx : ℝ) (c.fy : ℝ) (c.fw : ℝ) (c.fh : ℝ) (W : ℝ) (H : ℝ) +
    (aspect_score c : ℝ)

/-- One iteration of the selection loop: update `(best_face, best_score)`
when `total_score > best_score`.  The stored best face carries the
normalized confidence `total_score / 225.0`. -/
noncomputable def select_step (W H : ℚ) (st : Option (FaceCand × ℝ) × ℝ)
    (c : FaceCand) : Option (FaceCand × ℝ) × ℝ :=
  if st.2 < total_score c W H then (some (c, total_score c W H / 225), total_score c W H)
  else st

/-- `AdvancedFaceDetection._select_best_face(faces, gray, width, height)`:
fold the selection loop from `best_face = None`, `best_score = 0`. -/
noncomputable def _select_best_face (W H : ℚ) (faces : List FaceCand) :
    Option (FaceCand × ℝ) :=
  (faces.foldl (select_step W H) (none, 0)).1

/-- A candidate box that lies inside the `W × H` image and is
non-degenerate (what `cv2.detectMultiScale` returns on that image). -/
def InImage (c : FaceCand) (W H : ℚ) : Prop :=
  0 ≤ c.fx ∧ 0 ≤ c.fy ∧ 0 < c.fw ∧ 0 < c.fh ∧ c.fx + c.fw ≤ W ∧ c.fy + c.fh ≤ H

instance (c : FaceCand) (W H : ℚ) : Decidable (InImage c W H) := by
  unfold InImage; infer_instance

/-! ### Helper lemmas for the store model -/

theorem storeLookup_storeInsert_ne (k k' : RKey) (v : RateRecord)
    (s : List (RKey × RateRecord)) (h : k ≠ k') :
    storeLookup k (storeInsert k' v s) = storeLookup k s := by
  induction s with
  | nil => simp [storeInsert, storeLookup, h]
  | cons p rest ih =>
    obtain ⟨kp, vp⟩ := p
    by_cases hk : k' = kp
    · subst hk
      simp [storeInsert, storeLookup, h]
    · simp only [storeInsert, if_neg hk, storeLookup]
      by_cases hkk : k = kp
      · simp [hkk]
      · simp [hkk, ih]

theorem check_rate_limit_congr (db db' : DbState) (identifier limit_type : String)
    (limit window_hours now : ℤ)
    (hH : db.healthy = db'.healthy) (hG : db.failGet = db'.failGet)
    (hlook : storeLookup (identifier, limit_type, utcDay now) db.store =
      storeLookup (identifier, limit_type, utcDay now) db'.store) :
    (check_rate_limit db identifier limit_type limit window_hours now).1 =
      (check_rate_limit db' identifier limit_type limit window_hours now).1 := by
  simp only [check_rate_limit]
  rw [hH, hG, hlook]
  cases storeLookup (identifier, limit_type, utcDay now) db'.store <;>
    dsimp only <;> split_ifs <;> rfl

theorem record_request_store (db : DbState) (identifier limit_type action : String)
    (window_hours now : ℤ) (hH : db.healthy = true) (hU : db.failUpdate = false) :
    ∃ v : RateRecord, (record_request db identifier limit_type action window_hours now).2 =
      { db with store := storeInsert (identifier, limit_type, utcDay now) v db.store } := by
  simp only [record_request, hH, hU]
  exact ⟨_, rfl⟩

/-! ### C2 -/

/-- C2: for every identifier, limit type, limit and window,
`check_rate_limit` is read-only (the store state it returns is the one it
was given), and it returns `allowed = true` with `remaining = limit - 1`
when no counter record exists under the current key or the record's window
has elapsed (`last_request < now - 3600 * window_hours`, the source's
`last_request < window_start`); `allowed = true` with
`remaining = limit - count - 1` for a live-window record with
`count < limit`; and `allowed = false` with `remaining = 0` when the
live-window count has reached the limit. -/
theorem check_rate_limit_cases (db : DbState) (identifier limit_type : String)
    (limit window_hours now : ℤ)
    (hHealthy : db.healthy = true) (hNoErr : db.failGet = false) :
    (check_rate_limit db identifier limit_type limit window_hours now).2 = db ∧
    (storeLookup (identifier, limit_type, utcDay now) db.store = none →
      (check_rate_limit db identifier limit_type limit window_hours now).1 =
        { allowed := true, remaining := limit - 1, reset_time := none }) ∧
    (∀ item, storeLookup (identifier, limit_type, utcDay now) db.store = some item →
      item.last_request < now - 3600 * window_hours →
      (check_rate_limit db identifier limit_type limit window_hours now).1 =
        { allowed := true, remaining := limit - 1, reset_time := none }) ∧
    (∀ item, storeLookup (identifier, limit_type, utcDay now) db.store = some item →
      now - 3600 * window_hours ≤ item.last_request →
      item.request_count < limit →
      (check_rate_limit db identifier limit_type limit window_hours now).1 =
        { allowed := true, remaining := limit - item.request_count - 1,
          reset_time := none }) ∧
    (∀ item, storeLookup (identifier, limit_type, utcDay now) db.store = some item →
      now - 3600 * window_hours ≤ item.last_request →
      limit ≤ item.request_count →
      (check_rate_limit db identifier limit_type limit window_hours now).1.allowed = false ∧
      (check_rate_limit db identifier limit_type limit window_hours now).1.remaining = 0) := by
  refine ⟨?_, ?_, ?_, ?_, ?_⟩
  · simp only [check_rate_limit, hHealthy, hNoErr]
    cases storeLookup (identifier, limit_type, utcDay now) db.store <;>
      dsimp only <;> split_ifs <;> rfl
  · intro h
    simp [check_rate_limit, hHealthy, hNoErr, h]
  · intro item h hel
    simp [check_rate_limit, hHealthy, hNoErr, h, hel]
  · intro item h hlive hcount
    simp [check_rate_limit, hHealthy, hNoErr, h, not_lt.mpr hlive,
      not_le.mpr hcount]
  · intro item h hlive hcount
    simp [check_rate_limit, hHealthy, hNoErr, h, not_lt.mpr hlive, hcount]

/-- C2 witness: a fresh store with a healthy connection answers
`allowed = true`, `remaining = limit - 1`. -/
theorem check_rate_limit_cases_witness :
    (⟨true, false, false, []⟩ : DbState).healthy = true ∧
    (⟨true, false, false, []⟩ : DbState).failGet = false ∧
    storeLookup ("9.9.9.9", "IP_HOURLY", utcDay 7200) (⟨true, false, false, []⟩ : DbState).store = none ∧
    (check_rate_limit ⟨true, false, false, []⟩ "9.9.9.9" "IP_HOURLY" 3 1 7200).1 =
      { allowed := true, remaining := 3 - 1, reset_time := none } :=
  ⟨rfl, rfl, rfl,
    (check_rate_limit_cases ⟨true, false, false, []⟩ "9.9.9.9" "IP_HOURLY" 3 1 7200
      rfl rfl).2.1 rfl⟩

/-! ### C6 -/

/-- C6 counterexample: limit 2, one-hour window; requests are recorded at
`t = 0` and `t = 10`, and the denied check at `t = 20` carries
`reset_time = 3610` — the time of the *last* counted call plus the window —
and not `0 + 3600`, the time of the first counted call plus the window, as
the claim states. -/
theorem reset_time_counterexample :
    (check_rate_limit
      (record_request (record_request ⟨true, false, false, []⟩ "u" "OTP_HOURLY" "otp" 1 0).2
        "u" "OTP_HOURLY" "otp" 1 10).2
      "u" "OTP_HOURLY" 2 1 20).1.allowed = false ∧
    (check_rate_limit
      (record_request (record_request ⟨true, false, false, []⟩ "u" "OTP_HOURLY" "otp" 1 0).2
        "u" "OTP_HOURLY" "otp" 1 10).2
      "u" "OTP_HOURLY" 2 1 20).1.reset_time = some 3610 ∧
    some (3610 : ℤ) ≠ some ((0 : ℤ) + 3600) := by decide

/-- C6 amended: the denied `check_rate_limit` result carries
`reset_time = last_request + window`, i.e. the time of the most recent
recorded call (which overwrites `last_request` on every `record_request`)
plus the window duration — not the time of the first counted call. -/
theorem reset_time_amended (db : DbState) (identifier limit_type : String)
    (limit window_hours now : ℤ) (item : RateRecord)
    (hHealthy : db.healthy = true) (hNoErr : db.failGet = false)
    (hlook : storeLookup (identifier, limit_type, utcDay now) db.store = some item)
    (hlive : now - 3600 * window_hours ≤ item.last_request)
    (hcount : limit ≤ item.request_count) :
    (check_rate_limit db identifier limit_type limit window_hours now).1 =
      { allowed := false, remaining := 0,
        reset_time := some (item.last_request + 3600 * window_hours) } := by
  simp [check_rate_limit, hHealthy, hNoErr, hlook, not_lt.mpr hlive, hcount]

/-- C6 amended witness: the concrete denied check of the counterexample
scenario, `reset_time = 10 + 3600`. -/
theorem reset_time_amended_witness :
    (⟨true, false, false, [(("u", "OTP_HOURLY", 0), ⟨2, 10, "otp", 86410⟩)]⟩ : DbState).healthy = true ∧
    storeLookup ("u", "OTP_HOURLY", utcDay 20)
      (⟨true, false, false, [(("u", "OTP_HOURLY", 0), ⟨2, 10, "otp", 86410⟩)]⟩ : DbState).store =
      some ⟨2, 10, "otp", 86410⟩ ∧
    (20 : ℤ) - 3600 * 1 ≤ (10 : ℤ) ∧ (2 : ℤ) ≤ 2 ∧
    (check_rate_limit ⟨true, false, false, [(("u", "OTP_HOURLY", 0), ⟨2, 10, "otp", 86410⟩)]⟩
      "u" "OTP_HOURLY" 2 1 20).1 =
      { allowed := false, remaining := 0, reset_time := some ((10 : ℤ) + 3600 * 1) } :=
  ⟨rfl, by decide, by decide, by decide,
    reset_time_amended ⟨true, false, false, [(("u", "OTP_HOURLY", 0), ⟨2, 10, "otp", 86410⟩)]⟩
      "u" "OTP_HOURLY" 2 1 20 ⟨2, 10, "otp", 86410⟩ rfl rfl (by decide) (by decide) (by decide)⟩

/-! ### C7 -/

/-- C7 counterexample: with a healthy connection but a store error raised
inside `update_item`, `record_request` returns `False` — not `True` as the
claim's fail-open property requires for "a store error". -/
theorem fail_open_counterexample :
    (record_request ⟨true, false, true, []⟩ "1.2.3.4" "IP_HOURLY" "photo_process" 1 0).1 ≠
      true := by decide

/-- C7 amended: `check_rate_limit` fails open (`allowed = true`, nothing
persisted) both when the connection is unhealthy and when the read raises
a store error; `record_request` fails open (`true`, nothing persisted)
only when the connection is unhealthy — when the update itself raises a
store error it returns `false` (still persisting nothing). -/
theorem fail_open_amended (db : DbState) (identifier limit_type action : String)
    (limit window_hours now : ℤ) :
    (db.healthy = false →
      check_rate_limit db identifier limit_type limit window_hours now =
        ({ allowed := true, remaining := limit, reset_time := none }, db) ∧
      record_request db identifier limit_type action window_hours now = (true, db)) ∧
    (db.healthy = true → db.failGet = true →
      check_rate_limit db identifier limit_type limit window_hours now =
        ({ allowed := true, remaining := limit, reset_time := none }, db)) ∧
    (db.healthy = true → db.failUpdate = true →
      record_request db identifier limit_type action window_hours now = (false, db)) := by
  refine ⟨fun h => ⟨?_, ?_⟩, fun h hg => ?_, fun h hu => ?_⟩
  · simp [check_rate_limit, h]
  · simp [record_request, h]
  · simp [check_rate_limit, h, hg]
  · simp [record_request, h, hu]

/-- C7 amended witness: concrete unhealthy-connection and update-error
states. -/
theorem fail_open_amended_witness :
    (check_rate_limit (⟨false, false, false, []⟩ : DbState) "1.2.3.4" "IP_HOURLY" 3 1 0 =
      ({ allowed := true, remaining := 3, reset_time := none },
        (⟨false, false, false, []⟩ : DbState)) ∧
      record_request (⟨false, false, false, []⟩ : DbState) "1.2.3.4" "IP_HOURLY" "photo_process" 1 0 =
        (true, (⟨false, false, false, []⟩ : DbState))) ∧
    record_request (⟨true, false, true, []⟩ : DbState) "1.2.3.4" "IP_HOURLY" "photo_process" 1 0 =
      (false, (⟨true, false, true, []⟩ : DbState)) :=
  ⟨(fail_open_amended ⟨false, false, false, []⟩ "1.2.3.4" "IP_HOURLY" "photo_process" 3 1 0).1 rfl,
    (fail_open_amended ⟨true, false, true, []⟩ "1.2.3.4" "IP_HOURLY" "photo_process" 3 1 0).2.2
      rfl rfl⟩

/-! ### C10 -/

/-- C10: every rate counter key embeds the current UTC calendar date, so a
`record_request` only touches the key carrying its own date (all other
keys read back unchanged), and a `check_rate_limit` on a later UTC date —
even when less than the window duration has elapsed since the record —
reads a different key, finds no record, and answers a fresh window
(`allowed = true`, `remaining = limit - 1`). -/
theorem rate_key_embeds_utc_date (db : DbState) (identifier limit_type action : String)
    (limit window_hours now1 now2 : ℤ)
    (hH : db.healthy = true) (hG : db.failGet = false) (hU : db.failUpdate = false)
    (hday : utcDay now1 ≠ utcDay now2)
    (hnone : storeLookup (identifier, limit_type, utcDay now2) db.store = none)
    (hwin : now2 - now1 < 3600 * window_hours) :
    (∀ k : RKey, k ≠ (identifier, limit_type, utcDay now1) →
      storeLookup k (record_request db identifier limit_type action window_hours now1).2.store =
        storeLookup k db.store) ∧
    storeLookup (identifier, limit_type, utcDay now2)
      (record_request db identifier limit_type action window_hours now1).2.store = none ∧
    (check_rate_limit (record_request db identifier limit_type action window_hours now1).2
      identifier limit_type limit window_hours now2).1 =
      { allowed := true, remaining := limit - 1, reset_time := none } := by
  obtain ⟨v, hv⟩ := record_request_store db identifier limit_type action window_hours now1 hH hU
  have huntouched : ∀ k : RKey, k ≠ (identifier, limit_type, utcDay now1) →
      storeLookup k (record_request db identifier limit_type action window_hours now1).2.store =
        storeLookup k db.store := by
    intro k hk
    rw [hv]
    exact storeLookup_storeInsert_ne k (identifier, limit_type, utcDay now1) v db.store hk
  have hkey2 : ((identifier, limit_type, utcDay now2) : RKey) ≠
      (identifier, limit_type, utcDay now1) := by
    intro h
    exact hday (congrArg (fun p : RKey => p.2.2) h).symm
  have hstill : storeLookup (identifier, limit_type, utcDay now2)
      (record_request db identifier limit_type action window_hours now1).2.store = none := by
    rw [huntouched _ hkey2]; exact hnone
  refine ⟨huntouched, hstill, ?_⟩
  rw [hv] at hstill ⊢
  simp [check_rate_limit, hH, hG, hstill]

/-- C10 witness: an `EMAIL_DAILY` record written late on UTC day 0
(`t = 86000`) is invisible to a check early on UTC day 1 (`t = 87000`),
only 1000 seconds later, far inside the 24-hour window. -/
theorem rate_key_embeds_utc_date_witness :
    utcDay 86000 ≠ utcDay 87000 ∧
    storeLookup ("e@x.io", "EMAIL_DAILY", utcDay 87000)
      (⟨true, false, false, []⟩ : DbState).store = none ∧
    (87000 : ℤ) - 86000 < 3600 * 24 ∧
    (check_rate_limit
      (record_request ⟨true, false, false, []⟩ "e@x.io" "EMAIL_DAILY" "photo_process" 24 86000).2
      "e@x.io" "EMAIL_DAILY" 20 24 87000).1 =
      { allowed := true, remaining := 20 - 1, reset_time := none } :=
  ⟨by decide, rfl, by decide,
    (rate_key_embeds_utc_date ⟨true, false, false, []⟩ "e@x.io" "EMAIL_DAILY" "photo_process"
      20 24 86000 87000 rfl rfl rfl (by decide) rfl (by decide)).2.2⟩

/-! ### C9 -/

/-- C9 (code bug): `implement_exponential_backoff` can never require a
backoff: `_get_last_failure_time` is a stub that always returns `None`, so
the branch that would return `backoff_required = true` is unreachable —
for every store state, identifier, failure type and time the result has
`backoff_required = false`, contradicting the claim's Scenario D
(`failure_count = 5` within the trailing hour must yield
`backoff_required = true` with one minute of backoff). -/
theorem backoff_never_required (db : DbState) (identifier failure_type : String)
    (now : ℤ) :
    (implement_exponential_backoff db identifier failure_type now).backoff_required =
      false := by
  simp only [implement_exponential_backoff, _get_last_failure_time]
  split_ifs <;> rfl

/-! ### C8 -/

/-- C8 counterexample: two `check_combined_limits` runs with
`verified = true` and no email, over stores that differ only in the
IP-keyed hourly counter (empty vs. a live count of 2 for the caller's IP),
return different decisions — the quota branch reads the IP counter for
verified users without an email, so the result's `remaining` field is 2 in
one run and 0 in the other. -/
theorem verified_ip_counterexample :
    check_combined_limits (⟨true, false, false, []⟩ : DbState) "1.2.3.4" none true 5000 ≠
      check_combined_limits
        (⟨true, false, false,
          [(("1.2.3.4", "IP_HOURLY", 0), ⟨2, 4990, "photo_process", 91390⟩)]⟩ : DbState)
        "1.2.3.4" none true 5000 := by decide

/-- C8 amended: `check_ip_limit` with `verified = true` always answers
`allowed = true` (with infinite remaining quota), and for verified users
*who present a non-empty email* the combined decision depends only on the
connection flags and the email-keyed daily counter — two runs over stores
agreeing there (and arbitrary IP addresses) give identical results.  For a
verified user without an email the `allowed` flag is still `true`, but the
`remaining` field is read from the IP-keyed hourly counter (the
counterexample). -/
theorem verified_ip_independence_amended (db db' : DbState) (ip ip' email : String)
    (now : ℤ) (hemail : email ≠ "")
    (hH : db.healthy = db'.healthy) (hG : db.failGet = db'.failGet)
    (hlook : storeLookup (email.toLower, "EMAIL_DAILY", utcDay now) db.store =
      storeLookup (email.toLower, "EMAIL_DAILY", utcDay now) db'.store) :
    check_combined_limits db ip (some email) true now =
      check_combined_limits db' ip' (some email) true now ∧
    (∀ (db2 : DbState) (ip2 : String) (now2 : ℤ),
      check_ip_limit db2 ip2 true now2 =
        { allowed := true, remaining := ⊤, limit_type := some "none",
          reset_time := none }) := by
  constructor
  · have htr : strTruthy (some email) = true := by
      simp [strTruthy, hemail]
    have hemail_eq : check_email_limit db email now = check_email_limit db' email now := by
      unfold check_email_limit
      rw [check_rate_limit_congr db db' email.toLower "EMAIL_DAILY"
        limits_verified_email_daily 24 now hH hG hlook]
    simp only [check_combined_limits, if_true, combined_tail, htr, Bool.and_self,
      Option.getD_some, if_pos, hemail_eq]
  · intro db2 ip2 now2
    rfl

/-- C8 amended witness: a concrete verified run with an email, over two
stores that agree on the email-keyed counter. -/
theorem verified_ip_independence_amended_witness :
    ("user@x.io" : String) ≠ "" ∧
    check_combined_limits (⟨true, false, false, []⟩ : DbState) "1.2.3.4" (some "user@x.io") true 0 =
      check_combined_limits (⟨true, false, false, []⟩ : DbState) "5.6.7.8" (some "user@x.io") true 0 :=
  ⟨by decide,
    (verified_ip_independence_amended ⟨true, false, false, []⟩ ⟨true, false, false, []⟩
      "1.2.3.4" "5.6.7.8" "user@x.io" 0 (by decide) rfl rfl rfl).1⟩

/-! ### Helper lemmas for the crop geometry -/

theorem fdiv_two (a : ℤ) : a.fdiv 2 = a / 2 := Int.fdiv_eq_ediv a (by norm_num)

theorem pytrunc_of_nonneg (q : ℚ) (h : 0 ≤ q) : pytrunc q = ⌊q⌋ := if_pos h

theorem pytrunc_lt (q : ℚ) (n : ℤ) (hn : 0 < n) (hq : q < (n : ℚ)) : pytrunc q < n := by
  unfold pytrunc
  split_ifs with h
  · exact Int.floor_lt.mpr hq
  · have h0 : ⌈q⌉ ≤ (0 : ℤ) :=
      Int.ceil_le.mpr (by exact_mod_cast le_of_lt (not_le.mp h))
    omega

theorem pytrunc_int_add (t : ℤ) (c : ℚ) (ht : 0 ≤ t) (hc : 0 ≤ c) :
    pytrunc ((t : ℚ) + c) = t + ⌊c⌋ := by
  rw [pytrunc_of_nonneg _ (add_nonneg (by exact_mod_cast ht) hc)]
  exact Int.floor_int_add t c

theorem crop_size_q_gt_two (fh : ℤ) (h : 1 ≤ fh) : (2 : ℚ) < crop_size_q fh := by
  unfold crop_size_q
  have h1 : (1 : ℚ) ≤ (fh : ℚ) := by exact_mod_cast h
  rw [show ((fh : ℚ) / 0.6) / 0.75 = (20 * fh) / 9 by ring, lt_div_iff (by norm_num)]
  linarith

theorem crop_vert_spec (H fy fh : ℤ) (hH : 1 ≤ H) (hfy : 0 ≤ fy) (hfh : 1 ≤ fh)
    (hin : fy + fh ≤ H) :
    0 ≤ (crop_vert H fy fh).1 ∧ (crop_vert H fy fh).1 < (crop_vert H fy fh).2 ∧
      (crop_vert H fy fh).2 ≤ H := by
  have hcs := crop_size_q_gt_two fh hfh
  have hH0 : (0 : ℤ) < H := by omega
  have harg_lt : (fy : ℚ) - (fh : ℚ) * 0.4 - crop_size_q fh * 0.12 < (H : ℚ) := by
    have h1 : (fy : ℚ) + (fh : ℚ) ≤ (H : ℚ) := by exact_mod_cast hin
    have h2 : (1 : ℚ) ≤ (fh : ℚ) := by exact_mod_cast hfh
    linarith
  have ht0_nonneg : (0 : ℤ) ≤
      max 0 (pytrunc ((fy : ℚ) - (fh : ℚ) * 0.4 - crop_size_q fh * 0.12)) :=
    le_max_left 0 _
  have ht0_lt_H :
      max 0 (pytrunc ((fy : ℚ) - (fh : ℚ) * 0.4 - crop_size_q fh * 0.12)) < H :=
    max_lt hH0 (pytrunc_lt _ H hH0 harg_lt)
  have hb2 : max 0 (pytrunc ((fy : ℚ) - (fh : ℚ) * 0.4 - crop_size_q fh * 0.12)) + 2 ≤
      pytrunc
        (((max 0 (pytrunc ((fy : ℚ) - (fh : ℚ) * 0.4 - crop_size_q fh * 0.12)) : ℤ) : ℚ) +
          crop_size_q fh) := by
    rw [pytrunc_int_add _ _ ht0_nonneg (by linarith)]
    have h3 : (2 : ℤ) ≤ ⌊crop_size_q fh⌋ :=
      Int.le_floor.mpr (by exact_mod_cast le_of_lt hcs)
    omega
  simp only [crop_vert]
  rw [if_neg (not_lt.mpr (min_le_left H _))]
  refine ⟨ht0_nonneg, lt_min (by omega) (by omega), min_le_left _ _⟩

theorem crop_horiz_spec (W fx fw fh : ℤ) (hW : 1 ≤ W) (hfx : 0 ≤ fx) (hfw : 1 ≤ fw)
    (hfh : 1 ≤ fh) (hin : fx + fw ≤ W) :
    0 ≤ (crop_horiz W fx fw fh).1 ∧ (crop_horiz W fx fw fh).1 < (crop_horiz W fx fw fh).2 ∧
      (crop_horiz W fx fw fh).2 ≤ W := by
  have hcs := crop_size_q_gt_two fh hfh
  have hW0 : (0 : ℤ) < W := by omega
  have harg_lt : (fx : ℚ) + (fw : ℚ) / 2 - crop_size_q fh / 2 < (W : ℚ) := by
    have h1 : (fx : ℚ) + (fw : ℚ) ≤ (W : ℚ) := by exact_mod_cast hin
    have h2 : (1 : ℚ) ≤ (fw : ℚ) := by exact_mod_cast hfw
    linarith
  have hl0_nonneg : (0 : ℤ) ≤
      max 0 (pytrunc ((fx : ℚ) + (fw : ℚ) / 2 - crop_size_q fh / 2)) :=
    le_max_left 0 _
  have hl0_lt_W :
      max 0 (pytrunc ((fx : ℚ) + (fw : ℚ) / 2 - crop_size_q fh / 2)) < W :=
    max_lt hW0 (pytrunc_lt _ W hW0 harg_lt)
  have hr2 : max 0 (pytrunc ((fx : ℚ) + (fw : ℚ) / 2 - crop_size_q fh / 2)) + 2 ≤
      pytrunc
        (((max 0 (pytrunc ((fx : ℚ) + (fw : ℚ) / 2 - crop_size_q fh / 2)) : ℤ) : ℚ) +
          crop_size_q fh) := by
    rw [pytrunc_int_add _ _ hl0_nonneg (by linarith)]
    have h3 : (2 : ℤ) ≤ ⌊crop_size_q fh⌋ :=
      Int.le_floor.mpr (by exact_mod_cast le_of_lt hcs)
    omega
  simp only [crop_horiz]
  rw [if_neg (not_lt.mpr (min_le_left W _))]
  refine ⟨hl0_nonneg, lt_min (by omega) (by omega), min_le_left _ _⟩

theorem square_adjust_spec (W H : ℤ) (p q : ℤ × ℤ)
    (hl : 0 ≤ p.1) (hlr : p.1 < p.2) (hrW : p.2 ≤ W)
    (ht : 0 ≤ q.1) (htb : q.1 < q.2) (hbH : q.2 ≤ H) :
    (square_adjust p q).right - (square_adjust p q).left =
      (square_adjust p q).bottom - (square_adjust p q).top ∧
    0 < (square_adjust p q).right - (square_adjust p q).left ∧
    0 ≤ (square_adjust p q).left ∧ 0 ≤ (square_adjust p q).top ∧
    (square_adjust p q).right ≤ W ∧ (square_adjust p q).bottom ≤ H := by
  obtain ⟨l, r⟩ := p
  obtain ⟨t, b⟩ := q
  simp only [square_adjust, fdiv_two] at *
  split_ifs <;> refine ⟨?_, ?_, ?_, ?_, ?_, ?_⟩ <;> dsimp only at * <;> omega

/-! ### C1 -/

/-- C1: for every face box fully inside the image (non-degenerate box,
image at least 1×1 px), the crop rectangle returned by `intelligent_crop`
is square (`right - left = bottom - top`), has positive size, and lies
fully within the image bounds. -/
theorem intelligent_crop_spec (W H : ℤ) (fb : Box)
    (hW : 1 ≤ W) (hH : 1 ≤ H) (hx : 0 ≤ fb.x) (hy : 0 ≤ fb.y)
    (hw : 1 ≤ fb.w) (hh : 1 ≤ fb.h) (hxw : fb.x + fb.w ≤ W) (hyh : fb.y + fb.h ≤ H) :
    (intelligent_crop true W H (some fb)).right - (intelligent_crop true W H (some fb)).left =
      (intelligent_crop true W H (some fb)).bottom - (intelligent_crop true W H (some fb)).top ∧
    0 < (intelligent_crop true W H (some fb)).right - (intelligent_crop true W H (some fb)).left ∧
    0 ≤ (intelligent_crop true W H (some fb)).left ∧
    0 ≤ (intelligent_crop true W H (some fb)).top ∧
    (intelligent_crop true W H (some fb)).right ≤ W ∧
    (intelligent_crop true W H (some fb)).bottom ≤ H := by
  have h1 := crop_horiz_spec W fb.x fb.w fb.h hW hx hw hh hxw
  have h2 := crop_vert_spec H fb.y fb.h hH hy hh hyh
  have hmain : intelligent_crop true W H (some fb) =
      square_adjust (crop_horiz W fb.x fb.w fb.h) (crop_vert H fb.y fb.h) := rfl
  rw [hmain]
  exact square_adjust_spec W H _ _ h1.1 h1.2.1 h1.2.2 h2.1 h2.2.1 h2.2.2

/-- C1 witness: a 640×480 image with the face box `(200, 120, 180, 200)`. -/
theorem intelligent_crop_spec_witness :
    ((intelligent_crop true 640 480 (some ⟨200, 120, 180, 200⟩)).right -
        (intelligent_crop true 640 480 (some ⟨200, 120, 180, 200⟩)).left =
      (intelligent_crop true 640 480 (some ⟨200, 120, 180, 200⟩)).bottom -
        (intelligent_crop true 640 480 (some ⟨200, 120, 180, 200⟩)).top) ∧
    0 ≤ (intelligent_crop true 640 480 (some ⟨200, 120, 180, 200⟩)).left ∧
    (intelligent_crop true 640 480 (some ⟨200, 120, 180, 200⟩)).right ≤ 640 :=
  ⟨(intelligent_crop_spec 640 480 ⟨200, 120, 180, 200⟩ (by decide) (by decide) (by decide)
      (by decide) (by decide) (by decide) (by decide) (by decide)).1,
    (intelligent_crop_spec 640 480 ⟨200, 120, 180, 200⟩ (by decide) (by decide) (by decide)
      (by decide) (by decide) (by decide) (by decide) (by decide)).2.2.1,
    (intelligent_crop_spec 640 480 ⟨200, 120, 180, 200⟩ (by decide) (by decide) (by decide)
      (by decide) (by decide) (by decide) (by decide) (by decide)).2.2.2.2.1⟩

/-! ### C5 -/

theorem expanded_size_eval : expanded_size 20 20 = 36 := by
  unfold expanded_size pytrunc
  norm_num

theorem expanded_x0_eval : expanded_x0 10 20 20 = 2 := by
  unfold expanded_x0
  rw [expanded_size_eval]
  decide

theorem expanded_y0_eval : expanded_y0 10 20 20 = 6 := by
  unfold expanded_y0
  rw [expanded_size_eval]
  have h14 : pytrunc ((36 : ℚ) * 0.4) = 14 := by unfold pytrunc; norm_num
  rw [show (((36 : ℤ) : ℚ)) = (36 : ℚ) by norm_num, h14]
  decide

theorem detection_valid_eval : detection_valid 20 20 2 100 100 = true := by
  unfold detection_valid
  norm_num

theorem detection_face_bbox_eval :
    detection_face_bbox 10 10 20 20 100 100 = ⟨2, 6, 36, 36⟩ := by
  unfold detection_face_bbox
  rw [expanded_size_eval, expanded_x0_eval, expanded_y0_eval]
  decide

/-- C5 counterexample: for the valid detection of a 100×100 image with the
raw winning box `(10, 10, 20, 20)` and two eyes, the box handed to the
crop-geometry step is `face_bbox = (2, 6, 36, 36)` — the 1.8×-expanded,
recentered crop region — and not the raw detected bounding box
`original_face = (10, 10, 20, 20)` as the claim states. -/
theorem process_box_counterexample :
    process_geometry_box (detect_face_result 10 10 20 20 2 100 100) ≠
      some (detect_face_result 10 10 20 20 2 100 100).original_face ∧
    process_geometry_box (detect_face_result 10 10 20 20 2 100 100) =
      some ⟨2, 6, 36, 36⟩ := by
  have heq : process_geometry_box (detect_face_result 10 10 20 20 2 100 100) =
      some ⟨2, 6, 36, 36⟩ := by
    unfold process_geometry_box detect_face_result
    rw [detection_face_bbox_eval]
    simp [detection_valid_eval]
  refine ⟨?_, heq⟩
  rw [heq]
  unfold detect_face_result
  decide

/-- C5 amended: the face box handed to `intelligent_crop` is the
`face_bbox` crop region of `detect_face` — the raw box expanded by the
separate multiplier 1.8, recentered with 40% headroom and clamped to the
image — not the raw detected box; whenever the expanded region fits in
the image (and the raw box is at least 2 px in each dimension) the handed
box is strictly wider and taller than the raw detected box, so an
expansion is applied between detection and geometry in addition to the
0.6/0.75/0.12 head constants. -/
theorem process_box_amended (x y w h W H : ℤ) (eyes : ℕ)
    (hw : 2 ≤ w) (hh : 2 ≤ h)
    (hx0 : 0 ≤ expanded_x0 x w h) (hy0 : 0 ≤ expanded_y0 y w h)
    (hxf : expanded_x0 x w h + expanded_size w h ≤ W)
    (hyf : expanded_y0 y w h + expanded_size w h ≤ H)
    (hvalid : (detect_face_result x y w h eyes W H).valid = true) :
    process_geometry_box (detect_face_result x y w h eyes W H) =
      some ⟨expanded_x0 x w h, expanded_y0 y w h, expanded_size w h, expanded_size w h⟩ ∧
    w < expanded_size w h ∧ h < expanded_size w h := by
  have hwq : (2 : ℚ) ≤ (w : ℚ) := by exact_mod_cast hw
  have hhq : (2 : ℚ) ≤ (h : ℚ) := by exact_mod_cast hh
  have hwlt : w < expanded_size w h := by
    have hfl : w + 1 ≤ ⌊(w : ℚ) * 1.8⌋ := by
      rw [Int.le_floor]
      push_cast
      linarith
    have hp : w + 1 ≤ pytrunc ((w : ℚ) * 1.8) := by
      rw [pytrunc_of_nonneg _ (by linarith)]
      exact hfl
    calc w < w + 1 := by omega
    _ ≤ pytrunc ((w : ℚ) * 1.8) := hp
    _ ≤ expanded_size w h := le_max_left _ _
  have hhlt : h < expanded_size w h := by
    have hfl : h + 1 ≤ ⌊(h : ℚ) * 1.8⌋ := by
      rw [Int.le_floor]
      push_cast
      linarith
    have hp : h + 1 ≤ pytrunc ((h : ℚ) * 1.8) := by
      rw [pytrunc_of_nonneg _ (by linarith)]
      exact hfl
    calc h < h + 1 := by omega
    _ ≤ pytrunc ((h : ℚ) * 1.8) := hp
    _ ≤ expanded_size w h := le_max_right _ _
  refine ⟨?_, hwlt, hhlt⟩
  have hbox : detection_face_bbox x y w h W H =
      ⟨expanded_x0 x w h, expanded_y0 y w h, expanded_size w h, expanded_size w h⟩ := by
    simp only [detection_face_bbox]
    have h1 : max 0 (min (expanded_x0 x w h) (W - expanded_size w h)) =
        expanded_x0 x w h := by omega
    have h2 : max 0 (min (expanded_y0 y w h) (H - expanded_size w h)) =
        expanded_y0 y w h := by omega
    rw [h1, h2]
    have h3 : min (expanded_size w h)
        (min (W - expanded_x0 x w h) (H - expanded_y0 y w h)) = expanded_size w h := by
      omega
    rw [h3]
  have hout : process_geometry_box (detect_face_result x y w h eyes W H) =
      some (detection_face_bbox x y w h W H) := by
    simp [process_geometry_box, detect_face_result] at hvalid ⊢
    simp [hvalid]
  rw [hout, hbox]

/-- C5 amended witness: the counterexample scenario satisfies the fit
hypotheses; the handed box is `(2, 6, 36, 36)`, strictly larger than the
raw `20 × 20` box. -/
theorem process_box_amended_witness :
    (0 : ℤ) ≤ expanded_x0 10 20 20 ∧
    expanded_x0 10 20 20 + expanded_size 20 20 ≤ 100 ∧
    (detect_face_result 10 10 20 20 2 100 100).valid = true ∧
    (process_geometry_box (detect_face_result 10 10 20 20 2 100 100) =
      some ⟨expanded_x0 10 20 20, expanded_y0 10 20 20, expanded_size 20 20,
        expanded_size 20 20⟩ ∧
      (20 : ℤ) < expanded_size 20 20 ∧ (20 : ℤ) < expanded_size 20 20) :=
  ⟨by rw [expanded_x0_eval]; decide,
    by rw [expanded_x0_eval, expanded_size_eval]; decide,
    detection_valid_eval,
    process_box_amended 10 10 20 20 100 100 2 (by decide) (by decide)
      (by rw [expanded_x0_eval]; decide)
      (by rw [expanded_y0_eval]; decide)
      (by rw [expanded_x0_eval, expanded_size_eval]; decide)
      (by rw [expanded_y0_eval, expanded_size_eval]; decide)
      detection_valid_eval⟩

/-! ### C4 -/

/-- C4 counterexample: on a 6×8 image with a degenerate candidate at the
origin, `center_distance = 5` and the code divides by the *full* diagonal
`sqrt(6² + 8²) = 10`, giving a position score of 25; dividing by the
diagonal half-length 5, as the claim states, would give 0. -/
theorem position_score_counterexample :
    position_score 0 0 0 0 6 8 ≠ spec_position_score 0 0 0 0 6 8 ∧
    position_score 0 0 0 0 6 8 = 25 ∧ spec_position_score 0 0 0 0 6 8 = 0 := by
  have hd : center_distance 0 0 0 0 6 8 = 5 := by
    unfold center_distance
    rw [show ((0 : ℝ) + 0 / 2 - 6 / 2) ^ 2 + (0 + 0 / 2 - 8 / 2) ^ 2 = 5 ^ 2 by norm_num]
    exact Real.sqrt_sq (by norm_num)
  have hD : Real.sqrt ((6 : ℝ) ^ 2 + 8 ^ 2) = 10 := by
    rw [show ((6 : ℝ) ^ 2 + 8 ^ 2) = 10 ^ 2 by norm_num]
    exact Real.sqrt_sq (by norm_num)
  have h1 : position_score 0 0 0 0 6 8 = 25 := by
    unfold position_score max_distance
    rw [hd, hD]
    norm_num
  have h2 : spec_position_score 0 0 0 0 6 8 = 0 := by
    unfold spec_position_score
    rw [hd, hD]
    norm_num
  exact ⟨by rw [h1, h2]; norm_num, h1, h2⟩

/-- C4 amended: the code's position score is
`(1 - centerDistance / maxDistance) * 50` with `maxDistance` the *full*
image diagonal `sqrt(width² + height²)` — that is, *twice* the distance
from the image center to a corner — not the diagonal half-length. -/
theorem position_score_amended (fx fy fw fh W H : ℝ) :
    position_score fx fy fw fh W H =
      (1 - center_distance fx fy fw fh W H /
        (2 * Real.sqrt ((W / 2) ^ 2 + (H / 2) ^ 2))) * 50 := by
  unfold position_score max_distance
  have h4 : (2 : ℝ) * Real.sqrt ((W / 2) ^ 2 + (H / 2) ^ 2) =
      Real.sqrt (W ^ 2 + H ^ 2) := by
    rw [show (W ^ 2 + H ^ 2 : ℝ) = 4 * ((W / 2) ^ 2 + (H / 2) ^ 2) by ring,
      show (4 : ℝ) = 2 ^ 2 by norm_num,
      Real.sqrt_mul (by positivity) _, Real.sqrt_sq (by norm_num)]
  rw [h4]

/-! ### C3 -/

theorem total_score_pos (c : FaceCand) (W H : ℚ) (hW : 0 < W) (hH : 0 < H)
    (hc : InImage c W H) : 0 < total_score c W H := by
  obtain ⟨h1, h2, h3, h4, h5, h6⟩ := hc
  unfold total_score
  have heye : (0 : ℝ) ≤ ((eye_score c : ℚ) : ℝ) := by
    have h : (0 : ℚ) ≤ eye_score c := by unfold eye_score; positivity
    exact_mod_cast h
  have hsize : (0 : ℝ) < ((size_score c W H : ℚ) : ℝ) := by
    have h : (0 : ℚ) < size_score c W H := by
      unfold size_score
      refine lt_min ?_ (by norm_num)
      exact mul_pos (mul_pos (div_pos (mul_pos h3 h4) (mul_pos hW hH)) (by norm_num))
        (by norm_num)
    exact_mod_cast h
  have haspect : (0 : ℝ) ≤ ((aspect_score c : ℚ) : ℝ) := by
    have h : (0 : ℚ) ≤ aspect_score c := by
      unfold aspect_score
      split_ifs <;> norm_num
    exact_mod_cast h
  have hposition : (0 : ℝ) ≤
      position_score (c.fx : ℝ) (c.fy : ℝ) (c.fw : ℝ) (c.fh : ℝ) (W : ℝ) (H : ℝ) := by
    have hWR : (0 : ℝ) < (W : ℝ) := by exact_mod_cast hW
    have hHR : (0 : ℝ) < (H : ℝ) := by exact_mod_cast hH
    have hx1 : (0 : ℝ) ≤ (c.fx : ℝ) := by exact_mod_cast h1
    have hy1 : (0 : ℝ) ≤ (c.fy : ℝ) := by exact_mod_cast h2
    have hw1 : (0 : ℝ) < (c.fw : ℝ) := by exact_mod_cast h3
    have hh1 : (0 : ℝ) < (c.fh : ℝ) := by exact_mod_cast h4
    have hx2 : (c.fx : ℝ) + (c.fw : ℝ) ≤ (W : ℝ) := by exact_mod_cast h5
    have hy2 : (c.fy : ℝ) + (c.fh : ℝ) ≤ (H : ℝ) := by exact_mod_cast h6
    have hdx : ((c.fx : ℝ) + (c.fw : ℝ) / 2 - (W : ℝ) / 2) ^ 2 ≤ (W : ℝ) ^ 2 := by
      nlinarith
    have hdy : ((c.fy : ℝ) + (c.fh : ℝ) / 2 - (H : ℝ) / 2) ^ 2 ≤ (H : ℝ) ^ 2 := by
      nlinarith
    have hD : (0 : ℝ) < max_distance (W : ℝ) (H : ℝ) := by
      unfold max_distance
      exact Real.sqrt_pos.mpr (by positivity)
    have hle : center_distance (c.fx : ℝ) (c.fy : ℝ) (c.fw : ℝ) (c.fh : ℝ) (W : ℝ) (H : ℝ) ≤
        max_distance (W : ℝ) (H : ℝ) := by
      unfold center_distance max_distance
      exact Real.sqrt_le_sqrt (add_le_add hdx hdy)
    have hdiv : center_distance (c.fx : ℝ) (c.fy : ℝ) (c.fw : ℝ) (c.fh : ℝ) (W : ℝ) (H : ℝ) /
        max_distance (W : ℝ) (H : ℝ) ≤ 1 := (div_le_one hD).mpr hle
    unfold position_score
    have : (0 : ℝ) ≤ 1 - center_distance (c.fx : ℝ) (c.fy : ℝ) (c.fw : ℝ) (c.fh : ℝ)
        (W : ℝ) (H : ℝ) / max_distance (W : ℝ) (H : ℝ) := by linarith
    exact mul_nonneg this (by norm_num)
  linarith

theorem select_fold_cases (W H : ℚ) (l : List FaceCand) :
    ∀ st : Option (FaceCand × ℝ) × ℝ,
      (l.foldl (select_step W H) st = st ∧ ∀ d ∈ l, total_score d W H ≤ st.2) ∨
      (∃ l1 c l2, l = l1 ++ c :: l2 ∧
        l.foldl (select_step W H) st =
          (some (c, total_score c W H / 225), total_score c W H) ∧
        st.2 < total_score c W H ∧
        (∀ d ∈ l1, total_score d W H < total_score c W H) ∧
        (∀ d ∈ l2, total_score d W H ≤ total_score c W H)) := by
  induction l with
  | nil => intro st; left; exact ⟨rfl, by simp⟩
  | cons c t ih =>
    intro st
    rw [List.foldl_cons]
    by_cases hc : st.2 < total_score c W H
    · have hstep : select_step W H st c =
          (some (c, total_score c W H / 225), total_score c W H) := by
        unfold select_step; rw [if_pos hc]
      rw [hstep]
      rcases ih (some (c, total_score c W H / 225), total_score c W H) with
        ⟨heq, hb⟩ | ⟨l1, c', l2, hsplit, heq, hlt, hl1, hl2⟩
      · right
        refine ⟨[], c, t, rfl, heq, hc, by simp, ?_⟩
        intro d hd
        simpa using hb d hd
      · right
        refine ⟨c :: l1, c', l2, by simp [hsplit], heq, ?_, ?_, hl2⟩
        · exact lt_trans hc (by simpa using hlt)
        · intro d hd
          rcases List.mem_cons.mp hd with rfl | hd'
          · simpa using hlt
          · exact hl1 d hd'
    · have hstep : select_step W H st c = st := by
        unfold select_step; rw [if_neg hc]
      rw [hstep]
      rcases ih st with ⟨heq, hb⟩ | ⟨l1, c', l2, hsplit, heq, hlt, hl1, hl2⟩
      · left
        refine ⟨heq, ?_⟩
        intro d hd
        rcases List.mem_cons.mp hd with rfl | hd'
        · exact not_lt.mp hc
        · exact hb d hd'
      · right
        refine ⟨c :: l1, c', l2, by simp [hsplit], heq, hlt, ?_, hl2⟩
        intro d hd
        rcases List.mem_cons.mp hd with rfl | hd'
        · exact lt_of_le_of_lt (not_lt.mp hc) hlt
        · exact hl1 d hd'

/-- C3: `_select_best_face` returns `none` on the empty candidate list; on
a non-empty list of candidates that lie inside the image it returns the
candidate with the strictly highest total score together with its
normalized confidence, keeping the first-encountered candidate in input
order when totals tie (every candidate strictly before the winner scores
strictly less; every later one scores no more).  Determinism is inherent:
the embedding is a pure function of its arguments. -/
theorem select_best_face_spec (W H : ℚ) (l : List FaceCand)
    (hW : 0 < W) (hH : 0 < H) (hl : ∀ c ∈ l, InImage c W H) (hne : l ≠ []) :
    _select_best_face W H ([] : List FaceCand) = none ∧
    ∃ l1 c l2, l = l1 ++ c :: l2 ∧
      _select_best_face W H l = some (c, total_score c W H / 225) ∧
      (∀ d ∈ l, total_score d W H ≤ total_score c W H) ∧
      (∀ d ∈ l1, total_score d W H < total_score c W H) := by
  refine ⟨rfl, ?_⟩
  rcases select_fold_cases W H l (none, 0) with
    ⟨heq, hb⟩ | ⟨l1, c, l2, hsplit, heq, hlt, hl1, hl2⟩
  · exfalso
    obtain ⟨c0, t0, hl0⟩ := List.exists_cons_of_ne_nil hne
    have hpos := total_score_pos c0 W H hW hH
      (hl c0 (by rw [hl0]; exact List.mem_cons_self c0 t0))
    have hle := hb c0 (by rw [hl0]; exact List.mem_cons_self c0 t0)
    simp only at hle
    linarith
  · refine ⟨l1, c, l2, hsplit, ?_, ?_, hl1⟩
    · unfold _select_best_face
      rw [heq]
    · intro d hd
      rw [hsplit] at hd
      rcases List.mem_append.mp hd with hd1 | hd2
      · exact le_of_lt (hl1 d hd1)
      · rcases List.mem_cons.mp hd2 with rfl | hd3
        · exact le_refl _
        · exact hl2 d hd3

/-- C3 witness: a singleton in-image candidate on a 10×10 image. -/
theorem select_best_face_spec_witness :
    (0 : ℚ) < 10 ∧
    (∀ c ∈ [(⟨1, 1, 2, 2, 0⟩ : FaceCand)], InImage c 10 10) ∧
    ([(⟨1, 1, 2, 2, 0⟩ : FaceCand)] ≠ []) ∧
    (_select_best_face 10 10 ([] : List FaceCand) = none ∧
      ∃ l1 c l2, [(⟨1, 1, 2, 2, 0⟩ : FaceCand)] = l1 ++ c :: l2 ∧
        _select_best_face 10 10 [(⟨1, 1, 2, 2, 0⟩ : FaceCand)] =
          some (c, total_score c 10 10 / 225) ∧
        (∀ d ∈ [(⟨1, 1, 2, 2, 0⟩ : FaceCand)],
          total_score d 10 10 ≤ total_score c 10 10) ∧
        (∀ d ∈ l1, total_score d 10 10 < total_score c 10 10)) :=
  ⟨by norm_num,
    by
      intro c hc
      rw [List.mem_singleton] at hc
      subst hc
      exact ⟨by norm_num, by norm_num, by norm_num, by norm_num, by norm_num, by norm_num⟩,
    by simp,
    select_best_face_spec 10 10 [⟨1, 1, 2, 2, 0⟩] (by norm_num) (by norm_num)
      (by
        intro c hc
        rw [List.mem_singleton] at hc
        subst hc
        exact ⟨by norm_num, by norm_num, by norm_num, by norm_num, by norm_num, by norm_num⟩)
      (by simp)⟩
